import Mathlib

/-!
Verification of the voice-identification pipeline (Picovoice Eagle adapter).

Shallow embedding of the code in `src/utils/eagle.ts`, `src/utils/storage.ts`,
`src/hooks/useAudioRecorder.ts` and the enrollment / recognition components in
`src/components`.  JavaScript numbers that carry engine percentages, scores and
audio levels are modelled as rationals; `Int16Array` / `Int32Array` contents
are modelled as lists of integers carrying their range invariant in the
theorems; the asynchronous engine (Picovoice Eagle SDK) and the persistence
layer are external collaborators and are passed in as explicit parameters
(a function from the forwarded data to an `Except` result).
-/

/-- A persisted speaker record (`SpeakerProfile` in `src/types`): the
voiceprint is the `Int32Array` content, dates are instants in milliseconds
(the JS `Date` object is modelled by its millisecond timestamp, which
`toISOString` serialization preserves exactly). -/
structure SpeakerProfile where
  id : String
  name : String
  voiceprint : List Int
  createdAt : Int
  lastUpdated : Int
deriving DecidableEq

/-- Result of `profiler.enroll` as consumed by `EagleService.enrollAudio`. -/
structure EnrollResult where
  percentage : ℚ
  feedback : String
deriving DecidableEq

/-- Result of `EagleService.recognizeAudio`. -/
structure RecognizeResult where
  speakerIndex : Int
  confidence : ℚ
deriving DecidableEq

/-- The mutable fields of the `EagleService` class in `src/utils/eagle.ts`
that the claims depend on.  `hasProfiler` / `hasRecognizer` model whether
`this.profiler` / `this.recognizer` are non-null; `frameLength` models the
`this.recognizer.frameLength` property (0 standing for a falsy value, matching
the `|| 512` default in the source). -/
structure EagleState where
  isInitialized : Bool
  hasProfiler : Bool
  hasRecognizer : Bool
  frameLength : Nat
  enrolledProfiles : List SpeakerProfile
  audioBuffer : List Int
  minBufferSize : Nat
deriving DecidableEq

/-- `EagleService.enrollAudio(pcmData)`.  The external engine call
`this.profiler.enroll(buffer)` is the parameter `engine`; the returned pair is
(result-or-thrown-error, state of the service after the call).  Mirrors the
source: the incoming samples are appended to `this.audioBuffer` first; below
`minBufferSize` the call returns `{percentage: 0, feedback: 'COLLECTING_AUDIO'}`
without touching the engine; otherwise the accumulated buffer is forwarded to
the engine and the buffer is cleared only in the success branch (the catch
block rethrows without clearing). -/
def enrollAudio (s : EagleState) (pcmData : List Int)
    (engine : List Int → Except String EnrollResult) :
    Except String EnrollResult × EagleState :=
  if !s.isInitialized then
    (Except.error "Profiler not initialized. Call initializeProfiler() first.", s)
  else
    let newBuffer := s.audioBuffer ++ pcmData
    let s1 : EagleState := { s with audioBuffer := newBuffer }
    if newBuffer.length < s1.minBufferSize then
      (Except.ok { percentage := 0, feedback := "COLLECTING_AUDIO" }, s1)
    else if s1.hasProfiler then
      match engine newBuffer with
      | Except.ok r =>
          (Except.ok { percentage := r.percentage, feedback := r.feedback },
           { s1 with audioBuffer := [] })
      | Except.error e =>
          (Except.error ("Enrollment failed: " ++ e), s1)
    else
      (Except.error "Enrollment failed: Eagle profiler not initialized", s1)

/-- The exact condition under which `enrollAudio` reaches the
`this.profiler.enroll` engine call. -/
def enrollEngineCalled (s : EagleState) (pcmData : List Int) : Bool :=
  s.isInitialized && decide (s.minBufferSize ≤ s.audioBuffer.length + pcmData.length)
    && s.hasProfiler

/-- `EagleService.resetProfiler()`: resets the engine profiler and clears the
audio buffer. -/
def resetProfiler (s : EagleState) : EagleState :=
  { s with audioBuffer := [] }

/-- `EagleService.clearAudioBuffer()`. -/
def clearAudioBuffer (s : EagleState) : EagleState :=
  { s with audioBuffer := [] }

/-- JS `ToInt32` on an exact integer: reduce modulo 2^32 into
[-2^31, 2^31). -/
def toInt32 (v : Int) : Int :=
  let u := v % 4294967296
  if u < 2147483648 then u else u - 4294967296

/-- JS `ToUint32` on an exact integer (the value a `>>>` shift starts from):
reduce modulo 2^32 into [0, 2^32). -/
def toUInt32 (v : Int) : ℕ :=
  (v % 4294967296).toNat

/-- One word of the byte packing in `EagleService.exportProfile`:
`(b0 << 24) | (b1 << 16) | (b2 << 8) | b3` on bytes, landing in a signed
`Int32Array` slot. -/
def pack4 (b0 b1 b2 b3 : ℕ) : Int :=
  toInt32 ((b0 * 16777216 + b1 * 65536 + b2 * 256 + b3 : ℕ) : Int)

/-- The byte-to-`Int32Array` packing loop of `EagleService.exportProfile`:
groups of four big-endian bytes, the final word zero-padded
(`profileBytes[i + k] || 0`). -/
def packBytes : List ℕ → List Int
  | [] => []
  | [b0] => [pack4 b0 0 0 0]
  | [b0, b1] => [pack4 b0 b1 0 0]
  | [b0, b1, b2] => [pack4 b0 b1 b2 0]
  | b0 :: b1 :: b2 :: b3 :: rest => pack4 b0 b1 b2 b3 :: packBytes rest

/-- One word of the unpacking in `EagleService.initializeRecognizer`:
`(value >>> 24) & 0xFF`, `(value >>> 16) & 0xFF`, `(value >>> 8) & 0xFF`,
`value & 0xFF`. -/
def unpack4 (v : Int) : List ℕ :=
  let u := toUInt32 v
  [u / 16777216 % 256, u / 65536 % 256, u / 256 % 256, u % 256]

/-- The `Int32Array`-to-bytes expansion loop of
`EagleService.initializeRecognizer` (four big-endian bytes per word). -/
def unpackInt32 (words : List Int) : List ℕ :=
  (words.map unpack4).flatten

/-- `EagleService.exportProfile()`: obtains the opaque voiceprint bytes from
the engine (`this.profiler.export()`, the parameter) and packs them into an
`Int32Array` via the big-endian loop. -/
def exportProfile (s : EagleState) (engineBytes : Except String (List ℕ)) :
    Except String (List Int) :=
  if !s.isInitialized then
    Except.error "Profiler not initialized. Call initializeProfiler() first."
  else if s.hasProfiler then
    match engineBytes with
    | Except.ok bytes => Except.ok (packBytes bytes)
    | Except.error e => Except.error ("Profile export failed: " ++ e)
  else
    Except.error "Profile export failed: Eagle profiler not initialized"

/-- The `frameLength || 512` default read in `EagleService.recognizeAudio`. -/
def expectedFrameLength (s : EagleState) : ℕ :=
  if s.frameLength = 0 then 512 else s.frameLength

/-- The frame-length adjustment in `EagleService.recognizeAudio`: a frame
longer than `expected` is sliced to its prefix, a shorter one is written into
a fresh zero `Int16Array` of length `expected` (zero-padding at the end). -/
def adjustFrame (pcmData : List Int) (expected : ℕ) : List Int :=
  if pcmData.length ≠ expected then
    if pcmData.length > expected then
      pcmData.take expected
    else
      pcmData ++ List.replicate (expected - pcmData.length) 0
  else
    pcmData

/-- The frame actually handed to `this.recognizer.process` by
`EagleService.recognizeAudio`. -/
def forwardedFrame (s : EagleState) (pcmData : List Int) : List Int :=
  adjustFrame pcmData (expectedFrameLength s)

/-- The max-score selection loop of `EagleService.recognizeAudio`:
`maxScore` starts at -1, `speakerIndex` at -1, and both are updated whenever
`scores[i] > maxScore`. -/
def selectMaxAux : List ℚ → ℕ → ℚ → Int → ℚ × Int
  | [], _, maxScore, speakerIndex => (maxScore, speakerIndex)
  | sc :: rest, i, maxScore, speakerIndex =>
      if sc > maxScore then
        selectMaxAux rest (i + 1) sc (i : Int)
      else
        selectMaxAux rest (i + 1) maxScore speakerIndex

/-- The (maxScore, speakerIndex) pair computed by the selection loop. -/
def selectMax (scores : List ℚ) : ℚ × Int :=
  selectMaxAux scores 0 (-1) (-1)

/-- `EagleService.recognizeAudio(pcmData)`: adjust the frame length, forward
to the engine (`this.recognizer.process`, the parameter), pick the maximum
score, apply the fixed 0.5 confidence threshold. -/
def recognizeAudio (s : EagleState) (pcmData : List Int)
    (engine : List Int → Except String (List ℚ)) :
    Except String RecognizeResult :=
  if !s.isInitialized then
    Except.error "Recognizer not initialized. Call initializeRecognizer() first."
  else if s.hasRecognizer then
    match engine (forwardedFrame s pcmData) with
    | Except.ok scores =>
        let m := selectMax scores
        let idx := if m.1 < (1 / 2 : ℚ) then (-1 : Int) else m.2
        Except.ok { speakerIndex := idx, confidence := m.1 }
    | Except.error e => Except.error ("Recognition failed: " ++ e)
  else
    Except.error "Recognition failed: Eagle recognizer not initialized"

/-- `EagleService.getSpeakerName(speakerIndex)`: in-range indices map to the
enrolled profile name, everything else to "Unknown". -/
def getSpeakerName (s : EagleState) (speakerIndex : Int) : String :=
  if 0 ≤ speakerIndex ∧ speakerIndex < (s.enrolledProfiles.length : Int) then
    match s.enrolledProfiles.get? speakerIndex.toNat with
    | some p => p.name
    | none => "Unknown"
  else
    "Unknown"

/-! ## Profile storage (`src/utils/storage.ts`) -/

/-- The record shape `saveSpeakerProfile` actually puts into IndexedDB:
the voiceprint as a plain array (`Array.from`), the dates as ISO strings
(modelled by the millisecond instant they denote, which `toISOString` /
`new Date(iso)` preserve exactly). -/
structure StoredProfile where
  id : String
  name : String
  voiceprintArr : List Int
  createdAtMs : Int
  lastUpdatedMs : Int
deriving DecidableEq

/-- The serialization step of `SpeakerStorage.saveSpeakerProfile`. -/
def serializeProfile (p : SpeakerProfile) : StoredProfile :=
  { id := p.id
    name := p.name
    voiceprintArr := p.voiceprint
    createdAtMs := p.createdAt
    lastUpdatedMs := p.lastUpdated }

/-- The deserialization step shared by `getSpeakerProfile`,
`getAllSpeakerProfiles` and `getSpeakerByName`: `new Int32Array(arr)` applies
`ToInt32` to every element, `new Date(iso)` recovers the instant. -/
def deserializeProfile (sp : StoredProfile) : SpeakerProfile :=
  { id := sp.id
    name := sp.name
    voiceprint := sp.voiceprintArr.map toInt32
    createdAt := sp.createdAtMs
    lastUpdated := sp.lastUpdatedMs }

/-- `SpeakerStorage.saveSpeakerProfile`: an IndexedDB `put` on the store keyed
by `id` with a unique index on `name` — create-or-replace by id, rejected when
a different record already holds the name. -/
def saveSpeakerProfile (store : List StoredProfile) (p : SpeakerProfile) :
    Except String (List StoredProfile) :=
  if store.any (fun q => q.name = p.name && q.id ≠ p.id) then
    Except.error "Failed to save speaker profile"
  else
    Except.ok ((store.filter (fun q => q.id ≠ p.id)) ++ [serializeProfile p])

/-- `SpeakerStorage.getSpeakerProfile(id)`. -/
def getSpeakerProfile (store : List StoredProfile) (id : String) :
    Option SpeakerProfile :=
  (store.find? (fun q => q.id = id)).map deserializeProfile

/-- `SpeakerStorage.getSpeakerByName(name)` via the unique `name` index. -/
def getSpeakerByName (store : List StoredProfile) (name : String) :
    Option SpeakerProfile :=
  (store.find? (fun q => q.name = name)).map deserializeProfile

/-! ## Audio capture sample conversion (`src/hooks/useAudioRecorder.ts`) -/

/-- JS number truncation toward zero (`ToIntegerOrInfinity`), as applied when
a number is stored into an `Int16Array` slot. -/
def jsTrunc (q : ℚ) : Int :=
  if q < 0 then ⌈q⌉ else ⌊q⌋

/-- JS `ToInt16`: truncate toward zero, then reduce modulo 2^16 into
[-2^15, 2^15). -/
def toInt16 (q : ℚ) : Int :=
  (jsTrunc q + 32768) % 65536 - 32768

/-- The per-sample conversion in `processor.onaudioprocess`:
`sample = Math.max(-1, Math.min(1, inputData[i]))`, then
`sample < 0 ? sample * 0x8000 : sample * 0x7FFF`. -/
def convertSample (x : ℚ) : ℚ :=
  let sample := max (-1 : ℚ) (min 1 x)
  if sample < 0 then sample * 32768 else sample * 32767

/-- The value actually landing in the `Int16Array` frame slot. -/
def capturedSample (x : ℚ) : Int :=
  toInt16 (convertSample x)

/-! ## Enrollment sequencer (`SpeakerEnrollment` in
`src/components/SpeakerRecognition.tsx`) -/

/-- `EnrollmentState` from `src/types`. -/
structure EnrollmentState where
  isEnrolling : Bool
  isRecording : Bool
  progress : ℚ
  error : Option String
  success : Bool
deriving DecidableEq

/-- Observable calls the enrollment component makes, in order: engine enroll,
engine export, IndexedDB put, `onEnrollmentComplete`, `onError`, and
`eagleService.resetProfiler()`. -/
inductive EnrollEvent where
  | engineEnroll
  | engineExportCall
  | profileSaved
  | completeNotify
  | errorNotify
  | profilerResetEv
deriving DecidableEq

/-- The pieces of the running enrollment session: component state, the shared
`eagleService` state, the persisted store, the recorder flag
(`useAudioRecorder.isRecording`, cleared by `stopRecording()`), and the trace
of observable calls. -/
structure EnrollSession where
  comp : EnrollmentState
  eagle : EagleState
  store : List StoredProfile
  recording : Bool
  events : List EnrollEvent
deriving DecidableEq

/-- The external collaborators of one enrollment step: the engine enroll and
export operations, a storage-availability flag (`saveFails` injects the
IndexedDB request failing), the generated profile id and the current time. -/
structure EnrollEnv where
  engineEnroll : List Int → Except String EnrollResult
  engineBytes : Except String (List ℕ)
  saveFails : Bool
  freshId : String
  now : Int

/-- The persistence attempt inside `completeEnrollment`:
`speakerStorage.saveSpeakerProfile(profile)`, which can fail because storage
is unavailable or because the unique-name index rejects the put. -/
def attemptSave (env : EnrollEnv) (store : List StoredProfile)
    (p : SpeakerProfile) : Except String (List StoredProfile) :=
  if env.saveFails then Except.error "Failed to save speaker profile"
  else saveSpeakerProfile store p

/-- `completeEnrollment` in `SpeakerEnrollment`: export the voiceprint, build
a `SpeakerProfile` with the fresh id and current timestamps, persist it, mark
success, stop recording and notify the caller; any thrown error instead stops
recording and surfaces the error (no profiler reset on that path). -/
def completeEnrollment (env : EnrollEnv) (speakerName : String)
    (sess : EnrollSession) : EnrollSession :=
  let events1 := sess.events ++
    (if sess.eagle.isInitialized && sess.eagle.hasProfiler then
      [EnrollEvent.engineExportCall] else [])
  match exportProfile sess.eagle env.engineBytes with
  | Except.ok voiceprint =>
      let profile : SpeakerProfile :=
        { id := env.freshId, name := speakerName, voiceprint := voiceprint,
          createdAt := env.now, lastUpdated := env.now }
      match attemptSave env sess.store profile with
      | Except.ok store2 =>
          { sess with
            store := store2
            comp := { sess.comp with
              success := true, isEnrolling := false, isRecording := false }
            recording := false
            events := events1 ++ [EnrollEvent.profileSaved, EnrollEvent.completeNotify] }
      | Except.error e =>
          { sess with
            comp := { sess.comp with
              error := some e, isEnrolling := false, isRecording := false }
            recording := false
            events := events1 ++ [EnrollEvent.errorNotify] }
  | Except.error e =>
      { sess with
        comp := { sess.comp with
          error := some e, isEnrolling := false, isRecording := false }
        recording := false
        events := events1 ++ [EnrollEvent.errorNotify] }

/-- `handleAudioData` in `SpeakerEnrollment`: ignore frames when not
enrolling; otherwise run `eagleService.enrollAudio`, store the returned
percentage as the new progress, and at percentage >= 100 run
`completeEnrollment`; a thrown error stops recording, clears the enrolling
flags and surfaces the error (without resetting the profiler). -/
def enrollHandleAudioData (env : EnrollEnv) (speakerName : String)
    (sess : EnrollSession) (audioData : List Int) : EnrollSession :=
  if !sess.comp.isEnrolling then
    sess
  else
    let events1 := sess.events ++
      (if enrollEngineCalled sess.eagle audioData then
        [EnrollEvent.engineEnroll] else [])
    match enrollAudio sess.eagle audioData env.engineEnroll with
    | (Except.ok r, eagle2) =>
        let sess2 : EnrollSession :=
          { sess with
            eagle := eagle2
            events := events1
            comp := { sess.comp with progress := r.percentage, error := none } }
        if r.percentage ≥ 100 then completeEnrollment env speakerName sess2
        else sess2
    | (Except.error e, eagle2) =>
        { sess with
          eagle := eagle2
          events := events1 ++ [EnrollEvent.errorNotify]
          comp := { sess.comp with
            error := some e, isEnrolling := false, isRecording := false }
          recording := false }

/-- `stopEnrollment` in `SpeakerEnrollment` (user-initiated stop): clear the
flags, stop recording, reset the profiler. -/
def stopEnrollment (sess : EnrollSession) : EnrollSession :=
  { sess with
    comp := { sess.comp with isEnrolling := false, isRecording := false }
    recording := false
    eagle := resetProfiler sess.eagle
    events := sess.events ++ [EnrollEvent.profilerResetEv] }

/-! ## Recognition adapter (`SpeakerRecognition` in
`src/components/SpeakerRecognition.tsx`) -/

/-- `RecognitionState` from `src/types`. -/
structure RecognitionState where
  isRecognizing : Bool
  isListening : Bool
  identifiedSpeaker : Option String
  confidence : ℚ
  error : Option String
deriving DecidableEq

/-- The running recognition session: component state, the shared
`eagleService` state, the recorder flag and the stream of
`onSpeakerIdentified` notifications / reported errors. -/
structure RecSession where
  recState : RecognitionState
  eagle : EagleState
  recording : Bool
  identifications : List (String × ℚ)
  errorsReported : List String
deriving DecidableEq

/-- `handleAudioData` in `SpeakerRecognition`: ignore frames when not
recognizing; on success record the mapped speaker name and confidence and
notify the caller unless the name is "Unknown"; on a thrown error only set the
error field and report it — the session state, recording flag and
`isRecognizing` are left untouched. -/
def recognitionHandleAudioData (engine : List Int → Except String (List ℚ))
    (sess : RecSession) (audioData : List Int) : RecSession :=
  if !sess.recState.isRecognizing then
    sess
  else
    match recognizeAudio sess.eagle audioData engine with
    | Except.ok r =>
        let speakerName := getSpeakerName sess.eagle r.speakerIndex
        let sess2 : RecSession :=
          { sess with
            recState := { sess.recState with
              identifiedSpeaker := some speakerName
              confidence := r.confidence
              error := none } }
        if speakerName ≠ "Unknown" then
          { sess2 with
            identifications := sess2.identifications ++ [(speakerName, r.confidence)] }
        else
          sess2
    | Except.error e =>
        { sess with
          recState := { sess.recState with error := some e }
          errorsReported := sess.errorsReported ++ [e] }

/-! ## Helper lemmas -/

theorem selectMaxAux_fst (l : List ℚ) (i : ℕ) (m : ℚ) (j : Int) :
    (selectMaxAux l i m j).1 = l.foldl max m := by
  induction l generalizing i m j with
  | nil => rfl
  | cons sc rest ih =>
      by_cases h : sc > m
      · simp only [selectMaxAux, if_pos h, List.foldl_cons, ih,
          max_eq_right (le_of_lt h)]
      · simp only [selectMaxAux, if_neg h, List.foldl_cons, ih,
          max_eq_left (le_of_not_lt h)]

theorem le_foldl_max (l : List ℚ) (m : ℚ) :
    m ≤ l.foldl max m ∧ ∀ x ∈ l, x ≤ l.foldl max m := by
  induction l generalizing m with
  | nil => simp
  | cons a rest ih =>
      obtain ⟨h1, h2⟩ := ih (max m a)
      refine ⟨le_trans (le_max_left m a) h1, ?_⟩
      intro x hx
      rcases List.mem_cons.mp hx with rfl | hx
      · exact le_trans (le_max_right m x) h1
      · exact h2 x hx

theorem selectMaxAux_index (l : List ℚ) (i : ℕ) (m : ℚ) (j : Int) :
    ((selectMaxAux l i m j).1 = m ∧ (selectMaxAux l i m j).2 = j) ∨
    ∃ k : ℕ, k < l.length ∧ (selectMaxAux l i m j).2 = ((i + k : ℕ) : Int) ∧
      l.get? k = some (selectMaxAux l i m j).1 := by
  induction l generalizing i m j with
  | nil => exact Or.inl ⟨rfl, rfl⟩
  | cons sc rest ih =>
      by_cases h : sc > m
      · simp only [selectMaxAux, if_pos h]
        rcases ih (i + 1) sc (i : Int) with ⟨hm, hj⟩ | ⟨k, hk, hj, hg⟩
        · refine Or.inr ⟨0, by simp, ?_, ?_⟩
          · simpa using hj
          · simpa using hm.symm
        · refine Or.inr ⟨k + 1, by simpa using hk, ?_, by simpa using hg⟩
          rw [hj]; congr 1; omega
      · simp only [selectMaxAux, if_neg h]
        rcases ih (i + 1) m j with ⟨hm, hj⟩ | ⟨k, hk, hj, hg⟩
        · exact Or.inl ⟨hm, hj⟩
        · refine Or.inr ⟨k + 1, by simpa using hk, ?_, by simpa using hg⟩
          rw [hj]; congr 1; omega

theorem toUInt32_toInt32 (n : ℕ) (h : n < 4294967296) :
    toUInt32 (toInt32 (n : Int)) = n := by
  simp only [toInt32, toUInt32]
  have h1 : (n : Int) % 4294967296 = (n : Int) := by omega
  rw [h1]
  by_cases h2 : (n : Int) < 2147483648
  · rw [if_pos h2, h1]; omega
  · rw [if_neg h2]
    omega

theorem unpack4_pack4 (b0 b1 b2 b3 : ℕ)
    (h0 : b0 < 256) (h1 : b1 < 256) (h2 : b2 < 256) (h3 : b3 < 256) :
    unpack4 (pack4 b0 b1 b2 b3) = [b0, b1, b2, b3] := by
  have hlt : b0 * 16777216 + b1 * 65536 + b2 * 256 + b3 < 4294967296 := by omega
  simp only [unpack4, pack4]
  rw [show ((b0 * 16777216 + b1 * 65536 + b2 * 256 + b3 : ℕ) : Int) =
      ((b0 * 16777216 + b1 * 65536 + b2 * 256 + b3 : ℕ) : Int) from rfl]
  rw [toUInt32_toInt32 _ hlt]
  simp only [List.cons.injEq, and_true]
  refine ⟨?_, ?_, ?_, ?_⟩ <;> omega

theorem unpackInt32_cons (w : Int) (ws : List Int) :
    unpackInt32 (w :: ws) = unpack4 w ++ unpackInt32 ws := by
  simp [unpackInt32]

theorem find?_append_of_forall_false {α : Type} (p : α → Bool)
    (l1 l2 : List α) (h : ∀ x ∈ l1, p x = false) :
    (l1 ++ l2).find? p = l2.find? p := by
  induction l1 with
  | nil => simp
  | cons a rest ih =>
      have ha : p a = false := h a (List.mem_cons_self a rest)
      simp only [List.cons_append, List.find?_cons, ha]
      exact ih (fun x hx => h x (List.mem_cons_of_mem a hx))

theorem jsTrunc_bounds (q : ℚ) (hlo : -32768 ≤ q) (hhi : q ≤ 32767) :
    -32768 ≤ jsTrunc q ∧ jsTrunc q ≤ 32767 := by
  unfold jsTrunc
  by_cases h : q < 0
  · rw [if_pos h]
    constructor
    · have : (-32768 : ℚ) ≤ (⌈q⌉ : ℚ) := le_trans hlo (Int.le_ceil q)
      exact_mod_cast this
    · have h0 : ⌈q⌉ ≤ 0 := Int.ceil_le.mpr (by exact_mod_cast le_of_lt h)
      omega
  · rw [if_neg h]
    constructor
    · have h0 : (0 : Int) ≤ ⌊q⌋ := Int.floor_nonneg.mpr (le_of_not_lt h)
      omega
    · have : (⌊q⌋ : ℚ) ≤ 32767 := le_trans (Int.floor_le q) hhi
      exact_mod_cast this

theorem convertSample_bounds (x : ℚ) :
    -32768 ≤ convertSample x ∧ convertSample x ≤ 32767 := by
  unfold convertSample
  have hlo : (-1 : ℚ) ≤ max (-1 : ℚ) (min 1 x) := le_max_left _ _
  have hhi : max (-1 : ℚ) (min 1 x) ≤ 1 :=
    max_le (by norm_num) (min_le_left _ _)
  set s := max (-1 : ℚ) (min 1 x) with hs
  by_cases h : s < 0
  · rw [if_pos h]
    constructor
    · nlinarith
    · nlinarith
  · rw [if_neg h]
    have h0 : 0 ≤ s := le_of_not_lt h
    constructor
    · nlinarith
    · nlinarith

theorem adjustFrame_length (pcm : List Int) (n : ℕ) :
    (adjustFrame pcm n).length = n := by
  unfold adjustFrame
  by_cases h : pcm.length = n
  · simp [h]
  · rw [if_pos h]
    by_cases h2 : pcm.length > n
    · rw [if_pos h2, List.length_take]; omega
    · rw [if_neg h2]; simp; omega

theorem adjustFrame_of_length_eq (pcm : List Int) (n : ℕ)
    (h : pcm.length = n) : adjustFrame pcm n = pcm := by
  unfold adjustFrame
  simp [h]

/-! ## Claim theorems -/

/-- C9: every floating-point sample is clamped to [-1, 1] and then scaled
(negative by 0x8000, non-negative by 0x7FFF), so the scaled value and the
integer actually stored in the `Int16Array` frame always lie within the
signed 16-bit range [-32768, 32767] (the `ToInt16` wrap is the identity
here). -/
theorem capture_sample_in_int16_range (x : ℚ) :
    -32768 ≤ convertSample x ∧ convertSample x ≤ 32767 ∧
    capturedSample x = jsTrunc (convertSample x) ∧
    -32768 ≤ capturedSample x ∧ capturedSample x ≤ 32767 := by
  obtain ⟨h1, h2⟩ := convertSample_bounds x
  obtain ⟨h3, h4⟩ := jsTrunc_bounds _ h1 h2
  have heq : capturedSample x = jsTrunc (convertSample x) := by
    unfold capturedSample toInt16
    omega
  exact ⟨h1, h2, heq, heq ▸ h3, heq ▸ h4⟩

/-- C5: `EagleService.recognizeAudio` always forwards to the engine a frame
of exactly the required frame length: an exact-length frame is passed through,
a longer one is truncated to its prefix, a shorter one is zero-padded at the
end, and the adjustment is a total function (the call behaves on any frame
exactly as it does on the already-adjusted frame — no error arises from the
length fix-up). -/
theorem recognition_frame_adjusted_to_required_length
    (s : EagleState) (pcm : List Int) :
    (forwardedFrame s pcm).length = expectedFrameLength s ∧
    (pcm.length = expectedFrameLength s → forwardedFrame s pcm = pcm) ∧
    (expectedFrameLength s < pcm.length →
      forwardedFrame s pcm = pcm.take (expectedFrameLength s)) ∧
    (pcm.length < expectedFrameLength s →
      forwardedFrame s pcm =
        pcm ++ List.replicate (expectedFrameLength s - pcm.length) 0) ∧
    (∀ engine, recognizeAudio s pcm engine =
      recognizeAudio s (forwardedFrame s pcm) engine) := by
  refine ⟨adjustFrame_length pcm _, ?_, ?_, ?_, ?_⟩
  · intro h
    unfold forwardedFrame adjustFrame
    simp [h]
  · intro h
    unfold forwardedFrame adjustFrame
    rw [if_pos (by omega), if_pos (by omega)]
  · intro h
    unfold forwardedFrame adjustFrame
    rw [if_pos (by omega), if_neg (by omega)]
  · intro engine
    have hidem : forwardedFrame s (forwardedFrame s pcm) = forwardedFrame s pcm :=
      adjustFrame_of_length_eq _ _ (adjustFrame_length pcm _)
    unfold recognizeAudio
    rw [hidem]

/-- C10: the byte-to-`Int32Array` packing in `EagleService.exportProfile` and
the word-to-bytes expansion in `EagleService.initializeRecognizer` are
mutually inverse: unpacking the packed words returns the original bytes
followed exactly by the zero padding of the final word (no padding when the
byte count is a multiple of 4). -/
theorem voiceprint_pack_unpack_roundtrip (bytes : List ℕ)
    (h : ∀ b ∈ bytes, b < 256) :
    unpackInt32 (packBytes bytes) =
      bytes ++ List.replicate ((4 - bytes.length % 4) % 4) 0 := by
  induction bytes using packBytes.induct with
  | case1 => simp [packBytes, unpackInt32]
  | case2 b0 =>
      rw [packBytes, unpackInt32_cons,
        unpack4_pack4 b0 0 0 0 (h b0 (by simp)) (by norm_num) (by norm_num) (by norm_num)]
      simp [unpackInt32, List.replicate]
  | case3 b0 b1 =>
      rw [packBytes, unpackInt32_cons,
        unpack4_pack4 b0 b1 0 0 (h b0 (by simp)) (h b1 (by simp)) (by norm_num) (by norm_num)]
      simp [unpackInt32, List.replicate]
  | case4 b0 b1 b2 =>
      rw [packBytes, unpackInt32_cons,
        unpack4_pack4 b0 b1 b2 0 (h b0 (by simp)) (h b1 (by simp)) (h b2 (by simp)) (by norm_num)]
      simp [unpackInt32, List.replicate]
  | case5 b0 b1 b2 b3 rest ih =>
      rw [packBytes, unpackInt32_cons,
        unpack4_pack4 b0 b1 b2 b3 (h b0 (by simp)) (h b1 (by simp)) (h b2 (by simp))
          (h b3 (by simp)),
        ih (fun b hb => h b (by simp [hb]))]
      simp only [List.length_cons]
      rw [show (rest.length + 1 + 1 + 1 + 1) % 4 = rest.length % 4 by omega]
      simp

/-- C1 (amended): once the accumulated buffer reaches the minimum threshold
and is forwarded to the engine, the internal audio buffer is cleared when the
engine enroll call succeeds; when the engine call throws, the buffer is NOT
cleared — it still holds the full accumulated audio (the clearing statement
sits after the `await` inside the `try`, and the `catch` rethrows without
clearing). -/
theorem enroll_buffer_cleared_only_on_success (s : EagleState)
    (pcm : List Int) (engine : List Int → Except String EnrollResult)
    (hInit : s.isInitialized = true) (hProf : s.hasProfiler = true)
    (hLen : s.minBufferSize ≤ s.audioBuffer.length + pcm.length) :
    (∀ r, engine (s.audioBuffer ++ pcm) = Except.ok r →
      (enrollAudio s pcm engine).2.audioBuffer = []) ∧
    (∀ e, engine (s.audioBuffer ++ pcm) = Except.error e →
      (enrollAudio s pcm engine).2.audioBuffer = s.audioBuffer ++ pcm ∧
      (enrollAudio s pcm engine).1 =
        Except.error ("Enrollment failed: " ++ e)) := by
  unfold enrollAudio
  rw [hInit]
  simp only [Bool.not_true, Bool.false_eq_true, if_false]
  rw [if_neg (by simp only [List.length_append]; omega), if_pos hProf]
  constructor
  · intro r hr
    rw [hr]
  · intro e he
    rw [he]
    exact ⟨rfl, rfl⟩

/-- Engine stub that always throws. -/
def engineBoom : List Int → Except String EnrollResult :=
  fun _ => Except.error "boom"

/-- Initialized profiler state with a 1-sample threshold and an empty
buffer. -/
def esC1 : EagleState :=
  { isInitialized := true, hasProfiler := true, hasRecognizer := false,
    frameLength := 0, enrolledProfiles := [], audioBuffer := [],
    minBufferSize := 1 }

/-- C1 (counterexample): a call that reaches the threshold and forwards to
the engine, where the engine enroll throws: the call rethrows, yet the
internal buffer still holds the sample — its length is 1, not 0. -/
theorem enroll_buffer_not_cleared_on_failure_cex :
    esC1.isInitialized = true ∧ esC1.hasProfiler = true ∧
    esC1.minBufferSize ≤ esC1.audioBuffer.length + [(5 : Int)].length ∧
    (enrollAudio esC1 [5] engineBoom).1 =
      Except.error "Enrollment failed: boom" ∧
    (enrollAudio esC1 [5] engineBoom).2.audioBuffer = [5] ∧
    (enrollAudio esC1 [5] engineBoom).2.audioBuffer.length ≠ 0 := by
  refine ⟨rfl, rfl, by decide, rfl, rfl, by decide⟩

/-- Two-profile state (Alice, Bob) used by witness instances. -/
def esRec : EagleState :=
  { isInitialized := true, hasProfiler := false, hasRecognizer := true,
    frameLength := 2, enrolledProfiles :=
      [ { id := "id-alice", name := "Alice", voiceprint := [],
          createdAt := 0, lastUpdated := 0 },
        { id := "id-bob", name := "Bob", voiceprint := [],
          createdAt := 0, lastUpdated := 0 } ],
    audioBuffer := [], minBufferSize := 16000 }

/-- C4: `EagleService.recognizeAudio` picks the maximum engine score as the
confidence; a maximum below the fixed 0.5 threshold yields speaker index -1
(mapped by `getSpeakerName` to no identified speaker), otherwise the index of
the maximum is mapped to the corresponding enrolled profile name; the raw
maximum is returned as the confidence in both cases.  (Engine scores are
non-negative per the engine contract, which rules out the degenerate start
value -1 of the selection loop.) -/
theorem recognize_max_score_threshold_decision (s : EagleState)
    (pcm : List Int) (engine : List Int → Except String (List ℚ))
    (scores : List ℚ)
    (hInit : s.isInitialized = true) (hRec : s.hasRecognizer = true)
    (hEng : engine (forwardedFrame s pcm) = Except.ok scores)
    (hNe : scores ≠ []) (hPos : ∀ x ∈ scores, 0 ≤ x)
    (hLenEq : scores.length = s.enrolledProfiles.length) :
    ∃ r : RecognizeResult, recognizeAudio s pcm engine = Except.ok r ∧
      (∀ x ∈ scores, x ≤ r.confidence) ∧
      (∃ k : ℕ, k < scores.length ∧ scores.get? k = some r.confidence ∧
        ((1 / 2 : ℚ) ≤ r.confidence →
          r.speakerIndex = (k : Int) ∧
          ∃ p, s.enrolledProfiles.get? k = some p ∧
            getSpeakerName s r.speakerIndex = p.name)) ∧
      (r.confidence < 1 / 2 →
        r.speakerIndex = -1 ∧
        getSpeakerName s r.speakerIndex = "Unknown") := by
  have hmain : recognizeAudio s pcm engine = Except.ok
      { speakerIndex :=
          if (selectMax scores).1 < (1 / 2 : ℚ) then (-1 : Int)
          else (selectMax scores).2,
        confidence := (selectMax scores).1 } := by
    unfold recognizeAudio
    rw [hInit]
    simp only [Bool.not_true, Bool.false_eq_true, if_false]
    rw [if_pos hRec, hEng]
  have hfst : (selectMax scores).1 = scores.foldl max (-1) :=
    selectMaxAux_fst scores 0 (-1) (-1)
  have hub : ∀ x ∈ scores, x ≤ (selectMax scores).1 := by
    intro x hx
    rw [hfst]
    exact (le_foldl_max scores (-1)).2 x hx
  rcases selectMaxAux_index scores 0 (-1) (-1) with ⟨h1, _⟩ | ⟨k, hk, hj, hg⟩
  · exfalso
    obtain ⟨a, rest, rfl⟩ := List.exists_cons_of_ne_nil hNe
    have ha : (0 : ℚ) ≤ a := hPos a (List.mem_cons_self a rest)
    have hle : a ≤ (selectMax (a :: rest)).1 := hub a (List.mem_cons_self a rest)
    have : (selectMax (a :: rest)).1 = -1 := h1
    linarith
  · have hidx : (selectMax scores).2 = (k : Int) := by
      unfold selectMax
      rw [hj]
      congr 1
      omega
    refine ⟨_, hmain, hub, ⟨k, hk, ?_, ?_⟩, ?_⟩
    · exact hg
    · intro hconf
      have hconf2 : (1 / 2 : ℚ) ≤ (selectMax scores).1 := hconf
      have hnotlt : ¬ (selectMax scores).1 < (1 / 2 : ℚ) := not_lt.mpr hconf2
      have hspk :
          (if (selectMax scores).1 < (1 / 2 : ℚ) then (-1 : Int)
            else (selectMax scores).2) = (k : Int) := by
        rw [if_neg hnotlt]
        exact hidx
      have hklen : k < s.enrolledProfiles.length := hLenEq ▸ hk
      have hp : s.enrolledProfiles.get? k =
          some (s.enrolledProfiles.get ⟨k, hklen⟩) := List.get?_eq_get hklen
      refine ⟨hspk, s.enrolledProfiles.get ⟨k, hklen⟩, hp, ?_⟩
      show getSpeakerName s
        (if (selectMax scores).1 < (1 / 2 : ℚ) then (-1 : Int)
          else (selectMax scores).2) = _
      rw [hspk]
      unfold getSpeakerName
      rw [if_pos ⟨Int.natCast_nonneg k, by exact_mod_cast hklen⟩]
      simp only [Int.toNat_natCast]
      rw [hp]
    · intro hconf
      have hlt : (selectMax scores).1 < (1 / 2 : ℚ) := hconf
      have hspk :
          (if (selectMax scores).1 < (1 / 2 : ℚ) then (-1 : Int)
            else (selectMax scores).2) = (-1 : Int) := by
        rw [if_pos hlt]
      refine ⟨hspk, ?_⟩
      show getSpeakerName s
        (if (selectMax scores).1 < (1 / 2 : ℚ) then (-1 : Int)
          else (selectMax scores).2) = _
      rw [hspk]
      unfold getSpeakerName
      rw [if_neg (fun hcontra => absurd hcontra.1 (by norm_num))]

theorem toInt32_of_range (v : Int) (hlo : -2147483648 ≤ v)
    (hhi : v < 2147483648) : toInt32 v = v := by
  unfold toInt32
  by_cases h : v % 4294967296 < 2147483648
  · rw [if_pos h]; omega
  · rw [if_neg h]; omega

theorem deserialize_serialize (p : SpeakerProfile)
    (hvp : ∀ v ∈ p.voiceprint, -2147483648 ≤ v ∧ v < 2147483648) :
    deserializeProfile (serializeProfile p) = p := by
  unfold deserializeProfile serializeProfile
  have hmap : p.voiceprint.map toInt32 = p.voiceprint := by
    rw [show p.voiceprint.map toInt32 = p.voiceprint.map id from ?_, List.map_id]
    exact List.map_congr_left
      (fun v hv => toInt32_of_range v (hvp v hv).1 (hvp v hv).2)
  simp [hmap]

/-- C8: a profile saved with voiceprint V and name N, then loaded by id or by
name, comes back with voiceprint elementwise equal to V and name exactly N:
the `Array.from` / `new Int32Array` and `toISOString` / `new Date`
serializations round-trip (voiceprint elements carry the `Int32Array` range
invariant). -/
theorem profile_save_load_roundtrip (store : List StoredProfile)
    (p : SpeakerProfile)
    (hvp : ∀ v ∈ p.voiceprint, -2147483648 ≤ v ∧ v < 2147483648)
    (store2 : List StoredProfile)
    (hsave : saveSpeakerProfile store p = Except.ok store2) :
    getSpeakerProfile store2 p.id = some p ∧
    getSpeakerByName store2 p.name = some p := by
  unfold saveSpeakerProfile at hsave
  by_cases hany : store.any (fun q => q.name = p.name && q.id ≠ p.id) = true
  · rw [if_pos hany] at hsave
    cases hsave
  · rw [if_neg hany] at hsave
    have hstore2 : store2 =
        (store.filter (fun q => q.id ≠ p.id)) ++ [serializeProfile p] :=
      (Except.ok.injEq _ _ ▸ hsave.symm : _)
    have hidfalse : ∀ q ∈ store.filter (fun q => q.id ≠ p.id),
        (fun q : StoredProfile => decide (q.id = p.id)) q = false := by
      intro q hq
      have := (List.mem_filter.mp hq).2
      simp only [decide_eq_true_eq] at this ⊢
      simpa using this
    have hnamefalse : ∀ q ∈ store.filter (fun q => q.id ≠ p.id),
        (fun q : StoredProfile => decide (q.name = p.name)) q = false := by
      intro q hq
      obtain ⟨hqmem, hqid⟩ := List.mem_filter.mp hq
      have hall : ¬ ((fun q : StoredProfile =>
          decide (q.name = p.name) && decide (q.id ≠ p.id)) q = true) :=
        List.any_eq_false.mp (Bool.not_eq_true _ ▸ hany) q hqmem
      have hall2 : (decide (q.name = p.name) && decide (q.id ≠ p.id)) = false :=
        Bool.eq_false_iff.mpr hall
      simp only [Bool.and_eq_false_iff, decide_eq_false_iff_not,
        decide_eq_true_eq, not_not] at hall2 hqid ⊢
      rcases hall2 with h | h
      · exact h
      · exact absurd (by simpa using hqid) (by simpa using h)
    have hfind_id : List.find? (fun q => decide (q.id = p.id))
        [serializeProfile p] = some (serializeProfile p) := by
      simp [List.find?_cons, serializeProfile]
    have hfind_name : List.find? (fun q => decide (q.name = p.name))
        [serializeProfile p] = some (serializeProfile p) := by
      simp [List.find?_cons, serializeProfile]
    constructor
    · unfold getSpeakerProfile
      rw [hstore2, find?_append_of_forall_false _ _ _ hidfalse, hfind_id]
      simp [deserialize_serialize p hvp]
    · unfold getSpeakerByName
      rw [hstore2, find?_append_of_forall_false _ _ _ hnamefalse, hfind_name]
      simp [deserialize_serialize p hvp]

/-- C2 (amended): when the accumulated buffer (previous buffer plus new
frame) is below `minBufferSize`, no engine enroll call occurs (the call
result is independent of the engine and no engine event is logged) and a
COLLECTING_AUDIO status with percentage 0 is returned; the component stores
that 0 as the reported progress — so the reported progress is NOT in general
unchanged: it is reset to 0 (unchanged only when the previously reported
progress was already 0). -/
theorem enroll_below_threshold_no_engine_call (env : EnrollEnv)
    (speakerName : String) (sess : EnrollSession) (frame : List Int)
    (hEnr : sess.comp.isEnrolling = true)
    (hInit : sess.eagle.isInitialized = true)
    (hLt : sess.eagle.audioBuffer.length + frame.length <
      sess.eagle.minBufferSize) :
    (enrollAudio sess.eagle frame env.engineEnroll).1 =
      Except.ok { percentage := 0, feedback := "COLLECTING_AUDIO" } ∧
    (∀ engine2, enrollAudio sess.eagle frame engine2 =
      enrollAudio sess.eagle frame env.engineEnroll) ∧
    (enrollHandleAudioData env speakerName sess frame).events = sess.events ∧
    (enrollHandleAudioData env speakerName sess frame).comp.progress = 0 ∧
    (enrollHandleAudioData env speakerName sess frame).comp.error = none ∧
    (enrollHandleAudioData env speakerName sess frame).comp.isEnrolling = true ∧
    (enrollHandleAudioData env speakerName sess frame).store = sess.store ∧
    (enrollHandleAudioData env speakerName sess frame).eagle.audioBuffer =
      sess.eagle.audioBuffer ++ frame := by
  have henroll : ∀ engine2, enrollAudio sess.eagle frame engine2 =
      (Except.ok { percentage := 0, feedback := "COLLECTING_AUDIO" },
       { sess.eagle with audioBuffer := sess.eagle.audioBuffer ++ frame }) := by
    intro engine2
    unfold enrollAudio
    rw [hInit]
    simp only [Bool.not_true, Bool.false_eq_true, if_false]
    rw [if_pos (by simp only [List.length_append]; omega)]
    simp [hInit]
  have hcalled : enrollEngineCalled sess.eagle frame = false := by
    unfold enrollEngineCalled
    rw [hInit]
    simp only [Bool.true_and, Bool.and_eq_false_iff, decide_eq_false_iff_not,
      not_le]
    left
    omega
  have hstep : enrollHandleAudioData env speakerName sess frame =
      { sess with
        eagle := { sess.eagle with
          audioBuffer := sess.eagle.audioBuffer ++ frame }
        events := sess.events
        comp := { sess.comp with progress := 0, error := none } } := by
    unfold enrollHandleAudioData
    rw [hEnr]
    simp only [Bool.not_true, Bool.false_eq_true, if_false]
    rw [hcalled, henroll]
    simp only [Bool.false_eq_true, if_false, List.append_nil]
    rw [if_neg (by norm_num)]
  refine ⟨?_, ?_, ?_, ?_, ?_, ?_, ?_, ?_⟩
  · rw [henroll]
  · intro engine2
    rw [henroll, henroll]
  · rw [hstep]
  · rw [hstep]
  · rw [hstep]
  · rw [hstep]; exact hEnr
  · rw [hstep]
  · rw [hstep]

/-- Enrollment environment whose engine is never consulted in the
below-threshold scenario. -/
def envNoop : EnrollEnv :=
  { engineEnroll := fun _ => Except.error "unused",
    engineBytes := Except.error "unused",
    saveFails := false, freshId := "id-1", now := 0 }

/-- Initialized profiler state that is still collecting audio (16000-sample
threshold, empty buffer). -/
def esCollect : EagleState :=
  { isInitialized := true, hasProfiler := true, hasRecognizer := false,
    frameLength := 0, enrolledProfiles := [], audioBuffer := [],
    minBufferSize := 16000 }

/-- Enrollment session whose previously reported progress is 40. -/
def sessC2 : EnrollSession :=
  { comp := { isEnrolling := true, isRecording := true, progress := 40,
              error := none, success := false },
    eagle := esCollect, store := [], recording := true, events := [] }

/-- C2 (counterexample): a below-threshold frame arriving when the previously
reported progress is 40 makes the component report progress 0, not the
unchanged previous value — the claim that progress stays unchanged is false
on the code. -/
theorem enroll_below_threshold_progress_reset_cex :
    sessC2.comp.isEnrolling = true ∧
    sessC2.eagle.audioBuffer.length + [(0 : Int)].length <
      sessC2.eagle.minBufferSize ∧
    sessC2.comp.progress = 40 ∧
    (enrollHandleAudioData envNoop "Alice" sessC2 [0]).comp.progress = 0 ∧
    (40 : ℚ) ≠ 0 := by
  refine ⟨rfl, by decide, rfl, rfl, by norm_num⟩

/-- C7: a thrown recognition call while `Recognizing` surfaces the error but
leaves `isRecognizing` true, the recorder untouched and the session state
otherwise intact, and the very next frame is still processed (a successful
follow-up call updates the identified speaker) — one failure never terminates
the session. -/
theorem recognition_failure_keeps_session
    (engine : List Int → Except String (List ℚ)) (sess : RecSession)
    (frame : List Int) (e : String)
    (hRec : sess.recState.isRecognizing = true)
    (hErr : recognizeAudio sess.eagle frame engine = Except.error e) :
    (recognitionHandleAudioData engine sess frame).recState.isRecognizing = true ∧
    (recognitionHandleAudioData engine sess frame).recording = sess.recording ∧
    (recognitionHandleAudioData engine sess frame).recState.error = some e ∧
    (recognitionHandleAudioData engine sess frame).errorsReported =
      sess.errorsReported ++ [e] ∧
    (recognitionHandleAudioData engine sess frame).identifications =
      sess.identifications ∧
    (recognitionHandleAudioData engine sess frame).eagle = sess.eagle ∧
    (∀ engine2 frame2 r2,
      recognizeAudio sess.eagle frame2 engine2 = Except.ok r2 →
      (recognitionHandleAudioData engine2
        (recognitionHandleAudioData engine sess frame) frame2).recState.identifiedSpeaker =
        some (getSpeakerName sess.eagle r2.speakerIndex)) := by
  have hstep : recognitionHandleAudioData engine sess frame =
      { sess with
        recState := { sess.recState with error := some e }
        errorsReported := sess.errorsReported ++ [e] } := by
    unfold recognitionHandleAudioData
    rw [hRec]
    simp only [Bool.not_true, Bool.false_eq_true, if_false]
    rw [hErr]
  refine ⟨?_, ?_, ?_, ?_, ?_, ?_, ?_⟩
  · rw [hstep]; exact hRec
  · rw [hstep]
  · rw [hstep]
  · rw [hstep]
  · rw [hstep]
  · rw [hstep]
  · intro engine2 frame2 r2 hOk
    rw [hstep]
    unfold recognitionHandleAudioData
    rw [show ({ sess with
        recState := { sess.recState with error := some e }
        errorsReported := sess.errorsReported ++ [e] } : RecSession).recState.isRecognizing =
      true from hRec]
    simp only [Bool.not_true, Bool.false_eq_true, if_false]
    rw [hOk]
    dsimp only
    by_cases hname : getSpeakerName sess.eagle r2.speakerIndex ≠ "Unknown"
    · rw [if_pos hname]
    · rw [if_neg hname]

theorem count_append_not_mem (base extra : List EnrollEvent) (a : EnrollEvent)
    (h : a ∉ extra) : (base ++ extra).count a = base.count a := by
  rw [List.count_append, List.count_eq_zero.mpr h, Nat.add_zero]

theorem not_mem_ite_singleton (b : Bool) (x a : EnrollEvent) (h : a ≠ x) :
    a ∉ (if b = true then [x] else []) := by
  cases b <;> simp_all

theorem not_mem_append_events {a : EnrollEvent} {l1 l2 : List EnrollEvent}
    (h1 : a ∉ l1) (h2 : a ∉ l2) : a ∉ l1 ++ l2 := by
  simp_all

/-- C3 (amended): any failure during an enrollment step — the engine enroll
call throwing, the engine export call throwing, or profile persistence
failing — stops recording, clears the enrolling flags, surfaces the error to
the caller and persists nothing; however the engine profiler is NOT reset by
the failed path: no reset call occurs there (reset happens only on the
user-initiated stop / form reset). -/
theorem enroll_failure_aborts_without_reset (env : EnrollEnv)
    (speakerName : String) (sess : EnrollSession) (frame : List Int)
    (hEnr : sess.comp.isEnrolling = true)
    (hFail :
      (∃ e, (enrollAudio sess.eagle frame env.engineEnroll).1 =
        Except.error e) ∨
      (∃ r, (enrollAudio sess.eagle frame env.engineEnroll).1 =
          Except.ok r ∧ (100 : ℚ) ≤ r.percentage ∧
        ((∃ e, exportProfile (enrollAudio sess.eagle frame env.engineEnroll).2
            env.engineBytes = Except.error e) ∨
         (∃ vp e, exportProfile (enrollAudio sess.eagle frame env.engineEnroll).2
            env.engineBytes = Except.ok vp ∧
          attemptSave env sess.store
            { id := env.freshId, name := speakerName, voiceprint := vp,
              createdAt := env.now, lastUpdated := env.now } =
            Except.error e)))) :
    (enrollHandleAudioData env speakerName sess frame).recording = false ∧
    (enrollHandleAudioData env speakerName sess frame).comp.isEnrolling = false ∧
    (enrollHandleAudioData env speakerName sess frame).comp.isRecording = false ∧
    (∃ e, (enrollHandleAudioData env speakerName sess frame).comp.error = some e) ∧
    (enrollHandleAudioData env speakerName sess frame).store = sess.store ∧
    (enrollHandleAudioData env speakerName sess frame).comp.success =
      sess.comp.success ∧
    ((enrollHandleAudioData env speakerName sess frame).events.count
      EnrollEvent.profileSaved = sess.events.count EnrollEvent.profileSaved) ∧
    ((enrollHandleAudioData env speakerName sess frame).events.count
      EnrollEvent.completeNotify = sess.events.count EnrollEvent.completeNotify) ∧
    ((enrollHandleAudioData env speakerName sess frame).events.count
      EnrollEvent.profilerResetEv = sess.events.count EnrollEvent.profilerResetEv) := by
  unfold enrollHandleAudioData
  rw [hEnr]
  simp only [Bool.not_true, Bool.false_eq_true, if_false]
  rcases hpair : enrollAudio sess.eagle frame env.engineEnroll with ⟨res, eagle2⟩
  rw [hpair] at hFail
  simp only at hFail
  cases res with
  | error e =>
      dsimp only
      refine ⟨rfl, rfl, rfl, ⟨_, rfl⟩, rfl, rfl, ?_, ?_, ?_⟩ <;>
        (rw [List.append_assoc]
         exact count_append_not_mem _ _ _
          (not_mem_append_events
            (not_mem_ite_singleton _ _ _ (by intro h; cases h))
            (by intro h; simp only [List.mem_singleton] at h; cases h)))
  | ok r =>
      rcases hFail with ⟨e, he⟩ | ⟨r2, hr2, hpct, hrest⟩
      · cases he
      · have hrr : r2 = r := by
          injection hr2 with h
          exact h.symm
        subst hrr
        dsimp only
        rw [if_pos hpct]
        unfold completeEnrollment
        dsimp only
        rcases hrest with ⟨e, hexp⟩ | ⟨vp, e, hexp, hsave⟩
        · rw [hexp]
          dsimp only
          refine ⟨rfl, rfl, rfl, ⟨_, rfl⟩, rfl, rfl, ?_, ?_, ?_⟩ <;>
            (rw [List.append_assoc, List.append_assoc]
             exact count_append_not_mem _ _ _
              (not_mem_append_events
                (not_mem_ite_singleton _ _ _ (by intro h; cases h))
                (not_mem_append_events
                  (not_mem_ite_singleton _ _ _ (by intro h; cases h))
                  (by intro h; simp only [List.mem_singleton] at h; cases h))))
        · rw [hexp]
          dsimp only
          rw [hsave]
          dsimp only
          refine ⟨rfl, rfl, rfl, ⟨_, rfl⟩, rfl, rfl, ?_, ?_, ?_⟩ <;>
            (rw [List.append_assoc, List.append_assoc]
             exact count_append_not_mem _ _ _
              (not_mem_append_events
                (not_mem_ite_singleton _ _ _ (by intro h; cases h))
                (not_mem_append_events
                  (not_mem_ite_singleton _ _ _ (by intro h; cases h))
                  (by intro h; simp only [List.mem_singleton] at h; cases h))))

/-- Enrollment environment whose engine enroll call always throws. -/
def envBoom : EnrollEnv :=
  { engineEnroll := engineBoom, engineBytes := Except.error "unused",
    saveFails := false, freshId := "id-1", now := 0 }

/-- Enrollment session over an initialized profiler with a 1-sample
threshold. -/
def sessC3 : EnrollSession :=
  { comp := { isEnrolling := true, isRecording := true, progress := 0,
              error := none, success := false },
    eagle := esC1, store := [], recording := true, events := [] }

/-- C3 (counterexample): when the engine enroll call throws during an
enrollment step, the error is surfaced and recording stops, but the profiler
is NOT reset: no reset call is logged and the service audio buffer still
holds the un-cleared samples (a reset would have emptied it). -/
theorem enroll_failure_profiler_not_reset_cex :
    (enrollHandleAudioData envBoom "Alice" sessC3 [7]).comp.error =
      some "Enrollment failed: boom" ∧
    (enrollHandleAudioData envBoom "Alice" sessC3 [7]).recording = false ∧
    (enrollHandleAudioData envBoom "Alice" sessC3 [7]).events.count
      EnrollEvent.profilerResetEv = 0 ∧
    (enrollHandleAudioData envBoom "Alice" sessC3 [7]).eagle.audioBuffer = [7] ∧
    (resetProfiler (enrollHandleAudioData envBoom "Alice" sessC3 [7]).eagle).audioBuffer
      = [] ∧
    ([7] : List Int) ≠ [] := by
  refine ⟨rfl, rfl, rfl, rfl, rfl, by decide⟩

theorem enroll_step_not_enrolling (env : EnrollEnv) (speakerName : String)
    (sess : EnrollSession) (frame : List Int)
    (h : sess.comp.isEnrolling = false) :
    enrollHandleAudioData env speakerName sess frame = sess := by
  unfold enrollHandleAudioData
  rw [h]
  simp

/-- C6: an enrollment step whose engine enroll call reports percentage 100
(or more) runs the completion sequence exactly once: the engine export is
invoked once, exactly one `SpeakerProfile` carrying the fresh id and the
current timestamps is persisted, success is marked, recording is stopped and
the enrollment-complete callback fires once; afterwards the session has left
the `Enrolling` state, so any further frame is a no-op (no second
completion). -/
theorem enroll_complete_exactly_once (env : EnrollEnv) (speakerName : String)
    (sess : EnrollSession) (frame : List Int) (r : EnrollResult)
    (bytes : List ℕ)
    (hEnr : sess.comp.isEnrolling = true)
    (hInit : sess.eagle.isInitialized = true)
    (hProf : sess.eagle.hasProfiler = true)
    (hLen : sess.eagle.minBufferSize ≤
      sess.eagle.audioBuffer.length + frame.length)
    (hEng : env.engineEnroll (sess.eagle.audioBuffer ++ frame) = Except.ok r)
    (hPct : (100 : ℚ) ≤ r.percentage)
    (hBytes : env.engineBytes = Except.ok bytes)
    (hSaveOk : env.saveFails = false)
    (hNoConflict : sess.store.any
      (fun q => q.name = speakerName && q.id ≠ env.freshId) = false) :
    (enrollHandleAudioData env speakerName sess frame).events =
      sess.events ++ [EnrollEvent.engineEnroll, EnrollEvent.engineExportCall,
        EnrollEvent.profileSaved, EnrollEvent.completeNotify] ∧
    (enrollHandleAudioData env speakerName sess frame).store =
      sess.store.filter (fun q => q.id ≠ env.freshId) ++
        [serializeProfile { id := env.freshId, name := speakerName,
                            voiceprint := packBytes bytes, createdAt := env.now,
                            lastUpdated := env.now }] ∧
    (enrollHandleAudioData env speakerName sess frame).comp.success = true ∧
    (enrollHandleAudioData env speakerName sess frame).comp.isEnrolling = false ∧
    (enrollHandleAudioData env speakerName sess frame).comp.isRecording = false ∧
    (enrollHandleAudioData env speakerName sess frame).recording = false ∧
    (enrollHandleAudioData env speakerName sess frame).comp.progress =
      r.percentage ∧
    (∀ frame2, enrollHandleAudioData env speakerName
      (enrollHandleAudioData env speakerName sess frame) frame2 =
      enrollHandleAudioData env speakerName sess frame) := by
  have henroll : enrollAudio sess.eagle frame env.engineEnroll =
      (Except.ok r, { sess.eagle with audioBuffer := [] }) := by
    unfold enrollAudio
    rw [hInit]
    simp only [Bool.not_true, Bool.false_eq_true, if_false]
    rw [if_neg (by simp only [List.length_append]; omega), if_pos hProf, hEng]
    simp [hInit]
  have hcalled : enrollEngineCalled sess.eagle frame = true := by
    unfold enrollEngineCalled
    rw [hInit, hProf]
    simp only [Bool.true_and, Bool.and_true, decide_eq_true_eq]
    omega
  have hexport : exportProfile
      { isInitialized := true, hasProfiler := true,
        hasRecognizer := sess.eagle.hasRecognizer,
        frameLength := sess.eagle.frameLength,
        enrolledProfiles := sess.eagle.enrolledProfiles,
        audioBuffer := [], minBufferSize := sess.eagle.minBufferSize }
      env.engineBytes = Except.ok (packBytes bytes) := by
    unfold exportProfile
    rw [hBytes]
    simp
  have hsave : attemptSave env sess.store
      { id := env.freshId, name := speakerName, voiceprint := packBytes bytes,
        createdAt := env.now, lastUpdated := env.now } =
      Except.ok (sess.store.filter (fun q => q.id ≠ env.freshId) ++
        [serializeProfile { id := env.freshId, name := speakerName,
                            voiceprint := packBytes bytes, createdAt := env.now,
                            lastUpdated := env.now }]) := by
    unfold attemptSave saveSpeakerProfile
    rw [hSaveOk]
    simp only [Bool.false_eq_true, if_false]
    dsimp only
    rw [if_neg (by rw [hNoConflict]; exact Bool.false_ne_true)]
  have hstep : enrollHandleAudioData env speakerName sess frame =
      { comp := { isEnrolling := false, isRecording := false,
                  progress := r.percentage, error := none, success := true },
        eagle := { sess.eagle with audioBuffer := [] },
        store := sess.store.filter (fun q => q.id ≠ env.freshId) ++
          [serializeProfile { id := env.freshId, name := speakerName,
                              voiceprint := packBytes bytes, createdAt := env.now,
                              lastUpdated := env.now }],
        recording := false,
        events := ((sess.events ++ [EnrollEvent.engineEnroll]) ++
          [EnrollEvent.engineExportCall]) ++
          [EnrollEvent.profileSaved, EnrollEvent.completeNotify] } := by
    unfold enrollHandleAudioData
    rw [hEnr]
    simp only [Bool.not_true, Bool.false_eq_true, if_false]
    rw [hcalled]
    rw [if_pos rfl]
    rw [henroll]
    dsimp only
    rw [if_pos hPct]
    unfold completeEnrollment
    dsimp only
    rw [hInit, hProf]
    simp only [Bool.and_self, eq_self_iff_true, if_true]
    rw [hexport]
    dsimp only
    rw [hsave]
  refine ⟨?_, ?_, ?_, ?_, ?_, ?_, ?_, ?_⟩
  · rw [hstep]; simp
  · rw [hstep]
  · rw [hstep]
  · rw [hstep]
  · rw [hstep]
  · rw [hstep]
  · rw [hstep]
  · intro frame2
    rw [hstep]
    exact enroll_step_not_enrolling _ _ _ _ rfl

/-! ## Witness instances -/

/-- Engine stub that succeeds with 50 percent. -/
def engineOk50 : List Int → Except String EnrollResult :=
  fun _ => Except.ok { percentage := 50, feedback := "AUDIO_OK" }

/-- Witness for C1 at a concrete threshold-reaching call with a succeeding
engine: the buffer is cleared. -/
theorem enroll_buffer_cleared_witness :
    (enrollAudio esC1 [5] engineOk50).2.audioBuffer = [] :=
  (enroll_buffer_cleared_only_on_success esC1 [5] engineOk50 rfl rfl
    (by decide)).1 { percentage := 50, feedback := "AUDIO_OK" } rfl

/-- Witness for C2 at a concrete below-threshold call: COLLECTING_AUDIO with
percentage 0 comes back. -/
theorem enroll_below_threshold_witness :
    (enrollAudio sessC2.eagle [0] envNoop.engineEnroll).1 =
      Except.ok { percentage := 0, feedback := "COLLECTING_AUDIO" } :=
  (enroll_below_threshold_no_engine_call envNoop "Alice" sessC2 [0] rfl rfl
    (by decide)).1

/-- Witness for C3 at a concrete failing enroll call: recording stops. -/
theorem enroll_failure_aborts_witness :
    (enrollHandleAudioData envBoom "Alice" sessC3 [7]).recording = false :=
  (enroll_failure_aborts_without_reset envBoom "Alice" sessC3 [7] rfl
    (Or.inl ⟨"Enrollment failed: boom", rfl⟩)).1

/-- Engine stub that returns the score vector [0.9, 0.3]. -/
def engineScores : List Int → Except String (List ℚ) :=
  fun _ => Except.ok [9 / 10, 3 / 10]

/-- Witness for C4 at the two-profile state with scores [0.9, 0.3]. -/
theorem recognize_max_score_witness :
    ∃ r : RecognizeResult, recognizeAudio esRec [] engineScores =
      Except.ok r ∧
      (∀ x ∈ ([9 / 10, 3 / 10] : List ℚ), x ≤ r.confidence) ∧
      (∃ k : ℕ, k < ([9 / 10, 3 / 10] : List ℚ).length ∧
        ([9 / 10, 3 / 10] : List ℚ).get? k = some r.confidence ∧
        ((1 / 2 : ℚ) ≤ r.confidence →
          r.speakerIndex = (k : Int) ∧
          ∃ p, esRec.enrolledProfiles.get? k = some p ∧
            getSpeakerName esRec r.speakerIndex = p.name)) ∧
      (r.confidence < 1 / 2 →
        r.speakerIndex = -1 ∧
        getSpeakerName esRec r.speakerIndex = "Unknown") :=
  recognize_max_score_threshold_decision esRec [] engineScores
    [9 / 10, 3 / 10] rfl rfl rfl (by simp)
    (by intro x hx; fin_cases hx <;> norm_num) rfl

/-- Witness for C5 at a concrete short frame. -/
theorem recognition_frame_adjusted_witness :
    (forwardedFrame esRec [1, 2, 3]).length = expectedFrameLength esRec :=
  (recognition_frame_adjusted_to_required_length esRec [1, 2, 3]).1

/-- Environment for a completing enrollment step: engine reports 100 percent
and exports four voiceprint bytes; storage is available. -/
def envC6 : EnrollEnv :=
  { engineEnroll := fun _ => Except.ok { percentage := 100, feedback := "OK" },
    engineBytes := Except.ok [1, 2, 3, 4],
    saveFails := false, freshId := "id-6", now := 7 }

/-- Session for the completing enrollment step. -/
def sessC6 : EnrollSession :=
  { comp := { isEnrolling := true, isRecording := true, progress := 0,
              error := none, success := false },
    eagle := esC1, store := [], recording := true, events := [] }

/-- Witness for C6 at the concrete completing step: success is marked. -/
theorem enroll_complete_witness :
    (enrollHandleAudioData envC6 "Carol" sessC6 [9]).comp.success = true :=
  (enroll_complete_exactly_once envC6 "Carol" sessC6 [9]
    { percentage := 100, feedback := "OK" } [1, 2, 3, 4] rfl rfl rfl
    (by decide) rfl (by norm_num) rfl rfl rfl).2.2.1

/-- Engine stub whose recognition call always throws. -/
def engineErrScores : List Int → Except String (List ℚ) :=
  fun _ => Except.error "noise"

/-- Recognition session over the two-profile state. -/
def sessC7 : RecSession :=
  { recState := { isRecognizing := true, isListening := true,
                  identifiedSpeaker := none, confidence := 0, error := none },
    eagle := esRec, recording := true, identifications := [],
    errorsReported := [] }

/-- Witness for C7 at a concrete failing recognition call: the session stays
in the Recognizing state. -/
theorem recognition_failure_witness :
    (recognitionHandleAudioData engineErrScores sessC7 [1]).recState.isRecognizing
      = true :=
  (recognition_failure_keeps_session engineErrScores sessC7 [1]
    "Recognition failed: noise" rfl rfl).1

/-- Concrete profile with in-range voiceprint words. -/
def pW : SpeakerProfile :=
  { id := "id-w8", name := "Wanda", voiceprint := [1, -2, 2147483647],
    createdAt := 5, lastUpdated := 6 }

/-- Witness for C8 at a concrete save into an empty store. -/
theorem profile_save_load_witness :
    getSpeakerProfile [serializeProfile pW] pW.id = some pW ∧
    getSpeakerByName [serializeProfile pW] pW.name = some pW :=
  profile_save_load_roundtrip [] pW (by decide) [serializeProfile pW] rfl

/-- Witness for C10 at a 5-byte sequence (one padded word). -/
theorem voiceprint_roundtrip_witness :
    unpackInt32 (packBytes [1, 2, 3, 4, 5]) =
      [1, 2, 3, 4, 5] ++
        List.replicate ((4 - [1, 2, 3, 4, 5].length % 4) % 4) 0 :=
  voiceprint_pack_unpack_roundtrip [1, 2, 3, 4, 5] (by decide)
